import Mathlib

set_option maxRecDepth 4000

namespace SmartExpenses

/-!
Shallow embedding of the receipt-to-expense OCR pipeline of the
smart-expenses backend: `src/services/ocrService.js`,
`src/services/receiptService.js`, `src/services/expenseService.js`,
`src/validations/expenseValidation.js`.

Strings are modelled as `List Char`.  JavaScript regular-expression
matching is specialised, regex by regex, to the concrete patterns that
appear in the source; each specialised matcher implements the standard
leftmost, greedy-with-backtracking semantics of that one pattern.
The document database and the blob store are opaque collaborators (spec
section 6); their outcomes are supplied through explicit environment
records, and the sequence of writes they receive is returned as a trace.
-/

/-- Character class of the JavaScript regex escape `\s`, ASCII fragment
(the texts handled by this development are ASCII). -/
def isSpaceJs (c : Char) : Bool :=
  c = ' ' ∨ c = '\t' ∨ c = '\n' ∨ c = '\r' ∨ c = '\x0b' ∨ c = '\x0c'

/-- Numeric value of a digit string, most significant digit first. -/
def digitsValAux (acc : Nat) : List Char → Nat
  | [] => acc
  | c :: r => digitsValAux (acc * 10 + (c.toNat - '0'.toNat)) r

def digitsVal (cs : List Char) : Nat := digitsValAux 0 cs

/-- Exact decimal number `num / 10 ^ exp`: the value space in which the
JavaScript numbers of this code base are modelled (every number handled
by the code under study is a finite decimal, so this is lossless). -/
structure Dec where
  num : Int
  exp : Nat
deriving DecidableEq, Repr

/-- Rational value of a decimal. -/
def Dec.val (d : Dec) : ℚ := (d.num : ℚ) / 10 ^ d.exp

/-- Models JavaScript `parseFloat` on the character strings reachable in
this code base: the amount cleaner only ever feeds it decimal digits with
at most one embedded dot, so sign and exponent handling are never
exercised.  `none` stands for `NaN`. -/
def jsParseFloat (cs : List Char) : Option Dec :=
  let ip := cs.takeWhile Char.isDigit
  match cs.dropWhile Char.isDigit with
  | '.' :: r =>
      let fp := r.takeWhile Char.isDigit
      if ip = [] ∧ fp = [] then none
      else some ⟨(digitsVal ip * 10 ^ fp.length + digitsVal fp : Nat), fp.length⟩
  | _ => if ip = [] then none else some ⟨(digitsVal ip : Nat), 0⟩

/-- Embeds the first replace of ocrService.js line 53 (global over the
comma-and-dollar class): every comma and every dollar sign is removed. -/
def stripCommaDollar (cs : List Char) : List Char :=
  cs.filter (fun c => ¬ (c = ',' ∨ c = '$'))

/-- Embeds the second replace of the same line, which in JavaScript
replaces only the first comma with a dot — and therefore never fires,
since the previous replace has already removed every comma. -/
def firstCommaToDot : List Char → List Char
  | [] => []
  | c :: r => if c = ',' then '.' :: r else c :: firstCommaToDot r

/-- The `cleanAmount` computation of ocrService.js line 53. -/
def cleanAmount (cs : List Char) : Option Dec :=
  jsParseFloat (firstCommaToDot (stripCommaDollar cs))

/-- Matcher for the regex fragment `\d+[.,]\d{2}` at the head of the
input; returns the matched characters and the remaining input.  The
greedy `\d+` needs no backtracking here because the following class
`[.,]` can never match a digit. -/
def amtCore (cs : List Char) : Option (List Char × List Char) :=
  let ds := cs.takeWhile Char.isDigit
  match ds, cs.dropWhile Char.isDigit with
  | [], _ => none
  | _, sep :: a :: b :: r =>
      if (sep = '.' ∨ sep = ',') ∧ a.isDigit ∧ b.isDigit
      then some (ds ++ sep :: a :: b :: [], r) else none
  | _, _ => none

/-- Case-insensitive literal-word match at the head of the input
(`word` is given in lower case); returns the rest on success. -/
def stripCaseFold : List Char → List Char → Option (List Char)
  | [], cs => some cs
  | _ :: _, [] => none
  | w :: ws, c :: cs => if c.toLower = w then stripCaseFold ws cs else none

/-- Matcher, at one fixed position, for
`word[:\s]*\$?(\d+[.,]\d{2})` with the `i` flag (ocrService.js lines
43-44); returns the capture group.  `[:\s]*` and `\$?` are deterministic
here: no character of `[:\s]` nor `$` can start `\d+`. -/
def anchoredAmountAt (word : List Char) (cs : List Char) : Option (List Char) :=
  match stripCaseFold word cs with
  | none => none
  | some r1 =>
    let r2 := r1.dropWhile (fun c => c = ':' ∨ isSpaceJs c)
    let r3 := match r2 with
      | '$' :: t => t
      | _ => r2
    (amtCore r3).map Prod.fst

/-- Leftmost-match search: try the position matcher at every start
position, earliest first (the scan order of a JavaScript regex). -/
def scanFirst {α : Type} (f : List Char → Option α) : List Char → Option α
  | [] => f []
  | c :: r => match f (c :: r) with
      | some x => some x
      | none => scanFirst f r

/-- All non-overlapping matches, leftmost first, of a position matcher —
the semantics of `String.match` with the `g` flag.  The fuel argument is
the input length; every matcher used here consumes at least one
character, so the fuel never runs out. -/
def allMatchesAux (f : List Char → Option (List Char × List Char)) :
    Nat → List Char → List (List Char)
  | 0, _ => []
  | _ + 1, [] => []
  | n + 1, c :: r => match f (c :: r) with
      | some (m, after) => m :: allMatchesAux f n after
      | none => allMatchesAux f n r

def allMatches (f : List Char → Option (List Char × List Char))
    (cs : List Char) : List (List Char) :=
  allMatchesAux f cs.length cs

/-- Position matcher for `\$(\d+[.,]\d{2})`, full match returned
(the `g`-flag result of ocrService.js line 45 carries full matches,
not capture groups). -/
def dollarAmtAt (cs : List Char) : Option (List Char × List Char) :=
  match cs with
  | '$' :: r => (amtCore r).map (fun p => ('$' :: p.1, p.2))
  | _ => none

/-- Position matcher for `(\d+[.,]\d{2})` (ocrService.js line 46). -/
def bareAmtAt (cs : List Char) : Option (List Char × List Char) := amtCore cs

/-- The source reads `match[1] || match[0]` from the result of a
`g`-flagged `String.match`, i.e. an array of full match strings: this
selects the second match when two or more exist, otherwise the first. -/
def jsMatchOneOrZero : List (List Char) → Option (List Char)
  | [] => none
  | [m] => some m
  | _ :: m2 :: _ => some m2

/-- Candidate of pattern family 1, `/total[:\s]*\$?(\d+[.,]\d{2})/i`:
the capture group of the leftmost match (`match[1]`). -/
def amountPattern1 (cs : List Char) : Option (List Char) :=
  scanFirst (anchoredAmountAt "total".data) cs

/-- Candidate of pattern family 2, `/amount[:\s]*\$?(\d+[.,]\d{2})/i`. -/
def amountPattern2 (cs : List Char) : Option (List Char) :=
  scanFirst (anchoredAmountAt "amount".data) cs

/-- Candidate of pattern family 3, `/\$(\d+[.,]\d{2})/g`. -/
def amountPattern3 (cs : List Char) : Option (List Char) :=
  jsMatchOneOrZero (allMatches dollarAmtAt cs)

/-- Candidate of pattern family 4, `/(\d+[.,]\d{2})/g`. -/
def amountPattern4 (cs : List Char) : Option (List Char) :=
  jsMatchOneOrZero (allMatches bareAmtAt cs)

/-- The amount loop of ocrService.js lines 49-59: take the families in
order; on a match, clean and parse; accept only a strictly positive
value, otherwise (including `NaN`) fall through to the next family. -/
def amountLoop : List (Option (List Char)) → Option Dec
  | [] => none
  | none :: rest => amountLoop rest
  | some m :: rest => match cleanAmount m with
      | some v => if 0 < v.num then some v else amountLoop rest
      | none => amountLoop rest

/-- Field `parsedData.parsedAmount` as computed by `parseReceiptData`. -/
def jsParsedAmount (cs : List Char) : Option Dec :=
  amountLoop [amountPattern1 cs, amountPattern2 cs,
              amountPattern3 cs, amountPattern4 cs]

/-- Matcher for exactly `n` digits at the head of the input. -/
def dMatchExact : Nat → List Char → Option (List Char × List Char)
  | 0, cs => some ([], cs)
  | _ + 1, [] => none
  | n + 1, c :: r =>
      if c.isDigit then (dMatchExact n r).map (fun p => (c :: p.1, p.2)) else none

/-- The separator class `[-\/]` of the numeric date patterns. -/
def sepSlashDash (c : Char) : Bool := c = '-' ∨ c = '/'

/-- Greedy `\d{2,4}` at the end of a pattern (nothing follows it in the
regex, so the greedy take is final): up to four digits, at least two. -/
def dTail24 (cs : List Char) : Option (List Char × List Char) :=
  let k := min 4 (cs.takeWhile Char.isDigit).length
  if 2 ≤ k then some (cs.take k, cs.drop k) else none

/-- Greedy `\d{1,2}` at the end of a pattern: up to two digits, at least
one. -/
def dTail12 (cs : List Char) : Option (List Char × List Char) :=
  let k := min 2 (cs.takeWhile Char.isDigit).length
  if 1 ≤ k then some (cs.take k, cs.drop k) else none

/-- One backtracking alternative of
`(\d{1,2}[-\/]\d{1,2}[-\/]\d{2,4})` (ocrService.js line 63), with the
two `\d{1,2}` quantifiers fixed to `l1` and `l2` digits. -/
def numDate1With (l1 l2 : Nat) (cs : List Char) : Option (List Char × List Char) :=
  match dMatchExact l1 cs with
  | none => none
  | some (a, r1) =>
    match r1 with
    | [] => none
    | s1 :: r2 =>
      if sepSlashDash s1 then
        match dMatchExact l2 r2 with
        | none => none
        | some (b, r3) =>
          match r3 with
          | [] => none
          | s2 :: r4 =>
            if sepSlashDash s2 then
              match dTail24 r4 with
              | none => none
              | some (y, r5) => some (a ++ s1 :: (b ++ s2 :: y), r5)
            else none
      else none

/-- Position matcher for the first date pattern; alternatives in the
backtracking order of the regex (each greedy quantifier from longest to
shortest, rightmost quantifier varying fastest). -/
def numDate1At (cs : List Char) : Option (List Char × List Char) :=
  match numDate1With 2 2 cs with
  | some x => some x
  | none => match numDate1With 2 1 cs with
    | some x => some x
    | none => match numDate1With 1 2 cs with
      | some x => some x
      | none => numDate1With 1 1 cs

/-- One backtracking alternative of
`(\d{4}[-\/]\d{1,2}[-\/]\d{1,2})` (ocrService.js line 64). -/
def numDate2With (l2 : Nat) (cs : List Char) : Option (List Char × List Char) :=
  match dMatchExact 4 cs with
  | none => none
  | some (a, r1) =>
    match r1 with
    | [] => none
    | s1 :: r2 =>
      if sepSlashDash s1 then
        match dMatchExact l2 r2 with
        | none => none
        | some (b, r3) =>
          match r3 with
          | [] => none
          | s2 :: r4 =>
            if sepSlashDash s2 then
              match dTail12 r4 with
              | none => none
              | some (d, r5) => some (a ++ s1 :: (b ++ s2 :: d), r5)
            else none
      else none

/-- Position matcher for the second date pattern. -/
def numDate2At (cs : List Char) : Option (List Char × List Char) :=
  match numDate2With 2 cs with
  | some x => some x
  | none => numDate2With 1 cs

/-- ASCII letter class: `[a-z]` under the `i` flag. -/
def isAsciiLetter (c : Char) : Bool :=
  ('a' ≤ c ∧ c ≤ 'z') ∨ ('A' ≤ c ∧ c ≤ 'Z')

def monthNames : List (List Char) :=
  ["jan".data, "feb".data, "mar".data, "apr".data, "may".data, "jun".data,
   "jul".data, "aug".data, "sep".data, "oct".data, "nov".data, "dec".data]

/-- The month alternation
`(?:jan|feb|mar|apr|may|jun|jul|aug|sep|oct|nov|dec)` with the `i` flag;
all alternatives have length three, so on success the matched text is the
first three input characters. -/
def monthAt (cs : List Char) : Option (List Char × List Char) :=
  if monthNames.any (fun m => (stripCaseFold m cs).isSome)
  then some (cs.take 3, cs.drop 3) else none

/-- Greedy `\s+`: at least one whitespace character. -/
def wsPlus (cs : List Char) : Option (List Char × List Char) :=
  let ws := cs.takeWhile isSpaceJs
  if ws = [] then none else some (ws, cs.dropWhile isSpaceJs)

/-- One backtracking alternative of
`(\d{1,2}\s+(?:month)[a-z]*\s+\d{2,4})` (ocrService.js line 65). -/
def wordDate1With (l1 : Nat) (cs : List Char) : Option (List Char × List Char) :=
  match dMatchExact l1 cs with
  | none => none
  | some (a, r1) =>
    match wsPlus r1 with
    | none => none
    | some (w1, r2) =>
      match monthAt r2 with
      | none => none
      | some (mo, r3) =>
        let letters := r3.takeWhile isAsciiLetter
        let r4 := r3.dropWhile isAsciiLetter
        match wsPlus r4 with
        | none => none
        | some (w2, r5) =>
          match dTail24 r5 with
          | none => none
          | some (y, r6) => some (a ++ w1 ++ mo ++ letters ++ w2 ++ y, r6)

def wordDate1At (cs : List Char) : Option (List Char × List Char) :=
  match wordDate1With 2 cs with
  | some x => some x
  | none => wordDate1With 1 cs

/-- One backtracking alternative of
`((?:month)[a-z]*\s+\d{1,2},?\s+\d{2,4})` (ocrService.js line 66). -/
def wordDate2With (l : Nat) (cs : List Char) : Option (List Char × List Char) :=
  match monthAt cs with
  | none => none
  | some (mo, r1) =>
    let letters := r1.takeWhile isAsciiLetter
    let r2 := r1.dropWhile isAsciiLetter
    match wsPlus r2 with
    | none => none
    | some (w1, r3) =>
      match dMatchExact l r3 with
      | none => none
      | some (d, r4) =>
        let comma := match r4 with
          | ',' :: _ => [',']
          | _ => []
        let r5 := match r4 with
          | ',' :: t => t
          | _ => r4
        match wsPlus r5 with
        | none => none
        | some (w2, r6) =>
          match dTail24 r6 with
          | none => none
          | some (y, r7) => some (mo ++ letters ++ w1 ++ d ++ comma ++ w2 ++ y, r7)

def wordDate2At (cs : List Char) : Option (List Char × List Char) :=
  match wordDate2With 2 cs with
  | some x => some x
  | none => wordDate2With 1 cs

/-- Leftmost match of each of the four date patterns (non-global regexes:
`String.match` yields only the first match, and `match[1]` is the whole
matched substring since each capture group spans the whole pattern). -/
def datePattern1 (cs : List Char) : Option (List Char) :=
  scanFirst (fun s => (numDate1At s).map Prod.fst) cs

def datePattern2 (cs : List Char) : Option (List Char) :=
  scanFirst (fun s => (numDate2At s).map Prod.fst) cs

def datePattern3 (cs : List Char) : Option (List Char) :=
  scanFirst (fun s => (wordDate1At s).map Prod.fst) cs

def datePattern4 (cs : List Char) : Option (List Char) :=
  scanFirst (fun s => (wordDate2At s).map Prod.fst) cs

/-- The date loop of ocrService.js lines 69-79, parameterised by the
validity oracle `v` for `!isNaN(new Date(s).getTime())`: a pattern whose
leftmost match parses as an invalid date does not stop the loop — the
code falls through to the next pattern. -/
def dateLoop (v : List Char → Bool) : List (Option (List Char)) → Option (List Char)
  | [] => none
  | none :: rest => dateLoop v rest
  | some m :: rest => if v m then some m else dateLoop v rest

/-- Field `parsedData.parsedDate` as computed by `parseReceiptData`, recorded
as the matched substring whose parse was valid. -/
def jsParsedDate (v : List Char → Bool) (cs : List Char) : Option (List Char) :=
  dateLoop v [datePattern1 cs, datePattern2 cs, datePattern3 cs, datePattern4 cs]

/-- Split a character list at every character satisfying `p`
(`"".split` style: the empty input yields one empty field). -/
def splitBy (p : Char → Bool) : List Char → List (List Char)
  | [] => [[]]
  | c :: r =>
    if p c then [] :: splitBy p r
    else match splitBy p r with
      | [] => [[c]]
      | l :: ls => (c :: l) :: ls

/-- Models the test `!isNaN(new Date(dateString).getTime())` of
ocrService.js line 74 for the strings the four date patterns can produce.
ECMA-262 fixes the result only for ISO-format strings; for the remaining
shapes every mainstream engine (V8, SpiderMonkey, JavaScriptCore) agrees
on the two facts this development relies on: a word-month string such as
"25 dec 2020" parses as a valid date, and a numeric triple in which no
field can denote a month (such as "99/99/99") is an invalid date.
Numeric triples are modelled by the month/day/year reading (year first
when the leading field exceeds 31) that the engines use; this
approximation is exact on every string at which the oracle is evaluated
in this development. -/
def nodeDateValid (cs : List Char) : Bool :=
  if cs.any isAsciiLetter then true
  else
    match (splitBy sepSlashDash cs).map digitsVal with
    | [f1, f2, f3] =>
        (1 ≤ f1 ∧ f1 ≤ 12 ∧ 1 ≤ f2 ∧ f2 ≤ 31) ∨
        (31 < f1 ∧ 1 ≤ f2 ∧ f2 ≤ 12 ∧ 1 ≤ f3 ∧ f3 ≤ 31)
    | _ => false

/-- Containment of `needle` at the head of the input. -/
def headIsSub : List Char → List Char → Bool
  | [], _ => true
  | _ :: _, [] => false
  | n :: ns, h :: hs => n = h && headIsSub ns hs

/-- Substring containment (`String.prototype.includes`). -/
def containsSub (needle : List Char) : List Char → Bool
  | [] => headIsSub needle []
  | h :: t => headIsSub needle (h :: t) || containsSub needle t

/-- JavaScript `String.prototype.trim` (ASCII whitespace fragment). -/
def trimJs (cs : List Char) : List Char :=
  ((cs.dropWhile isSpaceJs).reverse.dropWhile isSpaceJs).reverse

/-- The non-blank lines of the text:
`ocrText.split('\n').filter(line => line.trim().length > 0)`
(ocrService.js line 82). -/
def jsLines (cs : List Char) : List (List Char) :=
  (splitBy (fun c => c = '\n') cs).filter (fun l => (trimJs l).length > 0)

/-- The address test of ocrService.js line 88:
`/^\d+/.test(m) || /street|avenue|road|blvd/i.test(m)`. -/
def merchantLooksAddress (m : List Char) : Bool :=
  (match m with
    | c :: _ => c.isDigit
    | [] => false) ||
  (let lm := m.map Char.toLower
   containsSub "street".data lm || containsSub "avenue".data lm ||
   containsSub "road".data lm || containsSub "blvd".data lm)

/-- Field `parsedData.parsedMerchant` (ocrService.js lines 82-91): the first
non-blank line, trimmed; when that looks like an address, the second
non-blank line instead (`lines[1]?.trim() || previous` falls back to the
first line when there is no second line). -/
def jsParsedMerchant (cs : List Char) : Option (List Char) :=
  match jsLines cs with
  | [] => none
  | l0 :: rest =>
    if merchantLooksAddress (trimJs l0) then
      some (match rest with
        | l1 :: _ => if trimJs l1 = [] then trimJs l0 else trimJs l1
        | [] => trimJs l0)
    else some (trimJs l0)

/-- Result record of `parseReceiptData` (ocrService.js lines 35-39). -/
structure ParsedFields where
  parsedMerchant : Option (List Char)
  parsedAmount : Option Dec
  parsedDate : Option (List Char)
deriving DecidableEq, Repr

/-- Function `parseReceiptData` of ocrService.js lines 34-94, parameterised by the
date-validity oracle. -/
def parseReceiptData (v : List Char → Bool) (cs : List Char) : ParsedFields :=
  ⟨jsParsedMerchant cs, jsParsedAmount cs, jsParsedDate v cs⟩

/-- The category table of ocrService.js lines 104-112, in declaration
order and with the keyword lists of the source verbatim (including the
duplicated keywords). -/
def categoriesTable : List (List Char × List (List Char)) :=
  [("food".data,
    ["food".data, "mcdonalds".data, "starbucks".data, "restaurant".data,
     "cafe".data, "coffee".data, "pizza".data, "burger".data, "food".data,
     "dining".data, "kitchen".data]),
   ("transport".data,
    ["transport".data, "uber".data, "lyft".data, "taxi".data, "gas".data,
     "fuel".data, "parking".data, "metro".data, "transit".data]),
   ("shopping".data,
    ["shopping".data, "store".data, "market".data, "shop".data,
     "retail".data, "mall".data]),
   ("groceries".data,
    ["groceries".data, "grocery".data, "supermarket".data, "walmart".data,
     "target".data, "safeway".data]),
   ("entertainment".data,
    ["entertainment".data, "cinema".data, "movie".data, "theater".data,
     "game".data, "entertainment".data]),
   ("healthcare".data,
    ["healthcare".data, "pharmacy".data, "hospital".data, "clinic".data,
     "doctor".data, "medical".data]),
   ("utilities".data,
    ["utilities".data, "electric".data, "water".data, "internet".data,
     "phone".data, "utility".data])]

def extractCategoryAux (text : List Char) :
    List (List Char × List (List Char)) → Option (List Char)
  | [] => none
  | (cat, kws) :: rest =>
    if kws.any (fun k => containsSub k text) then some cat
    else extractCategoryAux text rest

/-- Function `extractCategory` of ocrService.js lines 101-123: first category (in
declaration order) one of whose keywords occurs in the lowercased text. -/
def extractCategory (cs : List Char) : Option (List Char) :=
  extractCategoryAux (cs.map Char.toLower) categoriesTable

/-! Service layer: the pipeline orchestrator and the receipt/expense
services.  The document store and the blob store are the opaque
collaborators of spec section 6: the outcome of each fallible external
call is an explicit environment field, and the writes the run issues are
returned as a trace. -/

inductive OcrStatus
  | pending
  | processing
  | done
  | failed
deriving DecidableEq, Repr

/-- One `receiptRepository.update` call issued by the pipeline: the new
status, and the `ocrResult` text when the update carries one. -/
structure StatusUpdate where
  status : OcrStatus
  ocrResult : Option (List Char)
deriving DecidableEq, Repr

/-- The fixed sentinel stored for non-image receipts
(receiptService.js line 141). -/
def pdfSentinel : List Char := "PDF files do not support OCR processing".data

/-- The test of receiptService.js line 136: whether the stored MIME type
starts with the five-character image prefix. -/
def isImageMime (m : List Char) : Bool := headIsSub "image/".data m

/-- The `date` stored on a pipeline-created expense:
`parsedData.parsedDate || new Date()` (receiptService.js line 157). -/
inductive ExpenseDate
  | fromOcr (s : List Char)
  | currentDate
deriving DecidableEq, Repr

/-- The expense document the pipeline creates
(receiptService.js lines 160-174). -/
structure ExpenseDoc where
  userId : Nat
  receiptId : Nat
  merchant : List Char
  amount : Dec
  date : ExpenseDate
  category : Option (List Char)
  ocrText : List Char
  parsedData : ParsedFields
  isVerified : Bool
deriving DecidableEq, Repr

/-- Outcomes of the fallible collaborator calls inside one pipeline run:
`ocrOutcome = none` models `extractTextFromImage` throwing, and
`expenseCreateOk = false` models `expenseRepository.create` throwing.
Both are caught by the catch-all of receiptService.js lines 182-186. -/
structure OcrEnv where
  ocrOutcome : Option (List Char)
  expenseCreateOk : Bool
deriving DecidableEq, Repr

/-- Observable outcome of one pipeline run: the status updates written to
the receipt row in order, whether the text extractor was invoked, and the
expense created (if any). -/
structure RunResult where
  updates : List StatusUpdate
  ocrInvoked : Bool
  expense : Option ExpenseDoc
deriving DecidableEq, Repr

/-- JavaScript `x || d` on an optional string. -/
def jsOrElseStr (o : Option (List Char)) (d : List Char) : List Char :=
  match o with
  | some s => if s = [] then d else s
  | none => d

/-- Function `processReceiptOCR` of receiptService.js lines 129-187.  The receipt
row is the one just created, so `findById` yields the stored MIME type;
the try/catch materialises as the extra `failed` update in the branches
where a collaborator call throws. -/
def processReceiptOCR (v : List Char → Bool) (receiptId userId : Nat)
    (mimeType : List Char) (env : OcrEnv) : RunResult :=
  let u1 : StatusUpdate := ⟨.processing, none⟩
  if ¬ isImageMime mimeType then
    ⟨[u1, ⟨.done, some pdfSentinel⟩], false, none⟩
  else
    match env.ocrOutcome with
    | none => ⟨[u1, ⟨.failed, none⟩], true, none⟩
    | some text =>
      let parsed := parseReceiptData v text
      let cat := extractCategory text
      let u2 : StatusUpdate := ⟨.done, some text⟩
      match parsed.parsedAmount with
      | some a =>
        if 0 < a.num then
          if env.expenseCreateOk then
            ⟨[u1, u2], true, some ⟨userId, receiptId,
              jsOrElseStr parsed.parsedMerchant "Unknown Merchant".data, a,
              (match parsed.parsedDate with
                | some s => .fromOcr s
                | none => .currentDate),
              cat, text, parsed, false⟩⟩
          else ⟨[u1, u2, ⟨.failed, none⟩], true, none⟩
        else ⟨[u1, u2], true, none⟩
      | none => ⟨[u1, u2], true, none⟩

/-- Multer file object fields used by `createReceipt`. -/
structure UploadFile where
  originalname : List Char
  mimetype : List Char
  size : Nat
deriving DecidableEq, Repr

/-- An error value carrying `statusCode` and `message`, the error shape
this code base attaches to every thrown failure. -/
structure JsError where
  statusCode : Nat
  message : List Char
deriving DecidableEq, Repr

/-- The upload allow-list of receiptService.js lines 61-68. -/
def allowedMimeTypes : List (List Char) :=
  ["image/jpeg".data, "image/png".data, "image/jpg".data,
   "image/webp".data, "image/gif".data, "application/pdf".data]

/-- Receipt row fields used by this development. -/
structure ReceiptDoc where
  rid : Nat
  userId : Nat
  fileUrl : List Char
  fileName : List Char
  fileSize : Nat
  mimeType : List Char
  ocrStatus : OcrStatus
deriving DecidableEq, Repr

/-- Function `createReceipt` of receiptService.js lines 53-120.  `uploadOk` is the
Cloudinary upload outcome, `fileUrl` the URL it returns, `newId` the row
id the store assigns.  The pipeline is started fire-and-forget (line 104,
with `.catch` swallowing any rejection): its run result is returned
alongside, and the HTTP result is computed without consulting it. -/
def createReceipt (file : Option UploadFile) (userId : Nat) (uploadOk : Bool)
    (fileUrl : List Char) (newId : Nat) (v : List Char → Bool) (env : OcrEnv) :
    Except JsError ReceiptDoc × Option RunResult :=
  match file with
  | none => (.error ⟨400, "No file provided".data⟩, none)
  | some f =>
    if ¬ allowedMimeTypes.contains f.mimetype then
      (.error ⟨400, ("Invalid file type. Only JPEG, PNG, WebP, GIF images" ++
        " and PDF files are allowed").data⟩, none)
    else if 10 * 1024 * 1024 < f.size then
      (.error ⟨400, "File size too large. Maximum size is 10MB".data⟩, none)
    else if ¬ uploadOk then
      (.error ⟨500, "Failed to upload receipt to cloud storage".data⟩, none)
    else
      (.ok ⟨newId, userId, fileUrl, f.originalname, f.size, f.mimetype, .pending⟩,
       some (processReceiptOCR v newId userId f.mimetype env))

/-- Index of the first occurrence of `needle` (String.prototype.indexOf,
`none` for -1). -/
def indexOfSub (needle : List Char) : List Char → Option Nat
  | [] => if headIsSub needle [] then some 0 else none
  | h :: t =>
    if headIsSub needle (h :: t) then some 0
    else (indexOfSub needle t).map (· + 1)

/-- The test `/^v\d+\//.test(afterUpload)` of receiptService.js line 281. -/
def hasVersionPrefixJs (cs : List Char) : Bool :=
  match cs with
  | 'v' :: r =>
    (!(r.takeWhile Char.isDigit).isEmpty) &&
    (match r.dropWhile Char.isDigit with
      | '/' :: _ => true
      | _ => false)
  | _ => false

/-- Embeds receiptService.js line 283: the substring past the first
slash; when there is no slash, indexOf gives -1 and the substring from
index 0 is the whole string. -/
def dropThroughFirstSlash (cs : List Char) : List Char :=
  match indexOfSub "/".data cs with
  | some i => cs.drop (i + 1)
  | none => cs

/-- Index of the last dot (String.prototype.lastIndexOf, `none` for -1). -/
def lastDotIdxAux : Nat → Option Nat → List Char → Option Nat
  | _, acc, [] => acc
  | i, acc, c :: r => lastDotIdxAux (i + 1) (if c = '.' then some i else acc) r

def lastDotIdx (cs : List Char) : Option Nat := lastDotIdxAux 0 none cs

/-- The Cloudinary URL parsing of receiptService.js lines 264-287:
`none` when the `/upload/` marker is absent (the code throws inside the try block,
so `cloudinary.uploader.destroy` is never reached).  A missing extension
gives `lastIndexOf = -1` and `substring(0, -1)`, which JavaScript clamps
to the empty string. -/
def extractPublicId (url : List Char) : Option (List Char) :=
  match indexOfSub "/upload/".data url with
  | none => none
  | some i =>
    let afterUpload := url.drop (i + 8)
    let path :=
      if hasVersionPrefixJs afterUpload then dropThroughFirstSlash afterUpload
      else afterUpload
    some (path.take ((lastDotIdx path).getD 0))

inductive ResourceType
  | image
  | raw
deriving DecidableEq, Repr

/-- Resource-type selection of receiptService.js line 290. -/
def resourceTypeOf (mimeType : List Char) : ResourceType :=
  if mimeType = "application/pdf".data then .raw else .image

/-- One sub-step of the cascading delete, in the order it is issued.
`blobDelete none` records the case where the URL parse threw before the
destroy call; `expenseDelete none` records that no linked expense was
found (so no `deleteById` is issued). -/
inductive DelStep
  | blobDelete (arg : Option (List Char × ResourceType))
  | expenseDelete (arg : Option Nat)
  | rowDelete (id : Nat)
deriving DecidableEq, Repr

/-- Collaborator outcomes for one `deleteReceipt` call. -/
structure DelEnv where
  found : Option ReceiptDoc
  blobDeleteOk : Bool
  linkedExpense : Option Nat
  expenseDeleteOk : Bool
  rowDeleteOk : Bool
deriving DecidableEq, Repr

/-- Representation, in this embedding, of the opaque store error thrown by a
failing `receiptRepository.deleteById`; it has no `statusCode`, so the
controller maps it to 500. -/
def dbWriteError : JsError := ⟨500, "database delete failed".data⟩

/-- Function `deleteReceipt` of receiptService.js lines 248-323: ownership checks,
then best-effort blob delete (failures caught at lines 302-305),
best-effort linked-expense delete (failures caught at lines 314-317),
then the mandatory row delete, whose failure propagates. -/
def deleteReceipt (receiptId userId : Nat) (env : DelEnv) :
    Except JsError ReceiptDoc × List DelStep :=
  match env.found with
  | none => (.error ⟨404, "Receipt not found".data⟩, [])
  | some r =>
    if r.userId ≠ userId then (.error ⟨403, "Access denied".data⟩, [])
    else
      let blobStep := DelStep.blobDelete
        ((extractPublicId r.fileUrl).map (fun pid => (pid, resourceTypeOf r.mimeType)))
      let expStep := DelStep.expenseDelete env.linkedExpense
      let steps := [blobStep, expStep, DelStep.rowDelete receiptId]
      if env.rowDeleteOk then (.ok r, steps) else (.error dbWriteError, steps)

/-- Request body of a manual expense creation; the remaining optional
body fields (currency, paymentMethod, notes, tags) never influence the
control flow under study. -/
structure ExpenseInput where
  receiptId : Option (List Char)
  amount : Option Dec
  date : Option (List Char)
  merchant : Option (List Char)
  category : Option (List Char)
deriving DecidableEq, Repr

/-- Collaborator outcomes for one `createExpense` service call. -/
structure ExpenseCreateEnv where
  receipt : Option ReceiptDoc
  existingExpense : Option Nat
deriving DecidableEq, Repr

/-- JavaScript falsiness of an optional string (absent or empty). -/
def jsFalsyStr (o : Option (List Char)) : Bool :=
  match o with
  | none => true
  | some s => s.isEmpty

/-- JavaScript falsiness of an optional number (absent or zero). -/
def jsFalsyNum (o : Option Dec) : Bool :=
  match o with
  | none => true
  | some d => d.num = 0

/-- The expense row a manual creation stores:
`{ userId, ...expenseData, isVerified: false }`
(expenseService.js lines 54-58). -/
structure CreatedExpense where
  userId : Nat
  body : ExpenseInput
  isVerified : Bool
deriving DecidableEq, Repr

/-- Function `createExpense` of expenseService.js lines 11-61.  The repository
`create` is the final step, so an error result means nothing was
created. -/
def createExpenseSvc (d : ExpenseInput) (userId : Nat)
    (env : ExpenseCreateEnv) : Except JsError CreatedExpense :=
  if jsFalsyStr d.receiptId then .error ⟨400, "Receipt ID is required".data⟩
  else if jsFalsyNum d.amount then .error ⟨400, "Amount is required".data⟩
  else if jsFalsyStr d.date then .error ⟨400, "Date is required".data⟩
  else
    match env.receipt with
    | none => .error ⟨404, "Receipt not found".data⟩
    | some r =>
      if r.userId ≠ userId then .error ⟨403, "Access denied".data⟩
      else
        match env.existingExpense with
        | some _ => .error ⟨409, "Expense already exists for this receipt".data⟩
        | none => .ok ⟨userId, d, false⟩

/-- The `createExpenseValidation` chain of expenseValidation.js lines
4-45 as a pass/fail predicate on the body.  The third-party validators
isMongoId and isISO8601 are abstracted as parameters; the rules on the
optional fields are type checks that always hold in this typed model.
`isFloat({ min: 0.01 })` accepts exactly the numbers ≥ 0.01, i.e.
`100 * num ≥ 10 ^ exp`. -/
def createExpenseValidationOk (isMongoId isISO : List Char → Bool)
    (d : ExpenseInput) : Bool :=
  (match d.receiptId with
    | some s => !s.isEmpty && isMongoId s
    | none => false) &&
  (match d.amount with
    | some a => (10 : Int) ^ a.exp ≤ 100 * a.num
    | none => false) &&
  (match d.date with
    | some s => !s.isEmpty && isISO s
    | none => false)

/-- The 400 response of `handleValidationErrors`
(expenseValidation.js lines 110-123). -/
def validationFailedError : JsError := ⟨400, "Validation failed".data⟩

/-- The POST /api/expenses chain of expenseRoutes.js line 18: validation
middleware, then the controller invoking the service. -/
def createExpenseRoute (isMongoId isISO : List Char → Bool) (d : ExpenseInput)
    (userId : Nat) (env : ExpenseCreateEnv) : Except JsError CreatedExpense :=
  if createExpenseValidationOk isMongoId isISO d then createExpenseSvc d userId env
  else .error validationFailedError

/-- A concrete receipt text, the scenario of spec section 8. -/
def starbucksText : List Char := "Starbucks\nTotal: $45.99\n12/25/2024".data

/-! Theorems.  Each claim of the specification is settled below; shared
helper lemmas come first. -/

theorem Dec.val_pos_iff (d : Dec) : 0 < d.val ↔ 0 < d.num := by
  unfold Dec.val
  constructor
  · intro h
    by_contra hn
    push_neg at hn
    have hq : (d.num : ℚ) ≤ 0 := by exact_mod_cast hn
    have hp : (0 : ℚ) < 10 ^ d.exp := by positivity
    nlinarith [div_nonpos_of_nonpos_of_nonneg hq (le_of_lt hp)]
  · intro h
    have hq : (0 : ℚ) < (d.num : ℚ) := by exact_mod_cast h
    positivity

theorem amountLoop_pos (l : List (Option (List Char))) :
    ∀ a : Dec, amountLoop l = some a → 0 < a.num := by
  induction l with
  | nil => intro a h; exact absurd h (by simp [amountLoop])
  | cons o rest ih =>
    intro a h
    cases o with
    | none => exact ih a (by simpa [amountLoop] using h)
    | some m =>
      rw [amountLoop] at h
      cases hc : cleanAmount m with
      | none => rw [hc] at h; exact ih a h
      | some w =>
        rw [hc] at h
        by_cases h0 : 0 < w.num
        · simp only [h0, if_pos, Option.some.injEq] at h
          subst h; exact h0
        · simp only [h0, if_neg, if_false] at h
          exact ih a h

theorem dateLoop_valid_mem (v : List Char → Bool)
    (l : List (Option (List Char))) :
    ∀ m, dateLoop v l = some m → v m = true ∧ some m ∈ l := by
  induction l with
  | nil => intro m h; exact absurd h (by simp [dateLoop])
  | cons o rest ih =>
    intro m h
    cases o with
    | none =>
      rcases ih m (by simpa [dateLoop] using h) with ⟨h1, h2⟩
      exact ⟨h1, List.mem_cons_of_mem _ h2⟩
    | some m0 =>
      rw [dateLoop] at h
      by_cases hv : v m0 = true
      · simp only [hv, if_pos, Option.some.injEq] at h
        subst h; exact ⟨hv, List.mem_cons_self _ _⟩
      · simp only [hv, if_false, Bool.false_eq_true] at h
        rcases ih m h with ⟨h1, h2⟩
        exact ⟨h1, List.mem_cons_of_mem _ h2⟩

/-- Claim C1, counterexample: an image receipt whose text parses to a
positive amount, with the expense-store `create` call throwing.  The run
writes `processing`, then `done` (receiptService.js line 150), then the
catch-all of line 184 overwrites `done` with `failed` — the status is not
monotonic within the run. -/
theorem statusOverwritesDoneWithFailed :
    (processReceiptOCR nodeDateValid 1 1 "image/jpeg".data
        ⟨some "total: $5.00".data, false⟩).updates.map StatusUpdate.status
      = [OcrStatus.processing, OcrStatus.done, OcrStatus.failed] := by decide

/-- Claim C1 as amended: within one run the status sequence written to
the receipt row is `processing, done`, `processing, failed`, or
`processing, done, failed`; the status never regresses and `failed` is
never overwritten, but `done` is overwritten with `failed` exactly when a
step after the done-update (the expense creation) throws. -/
theorem statusMonotoneExceptCreateThrow (v : List Char → Bool)
    (rid uid : Nat) (mt : List Char) (env : OcrEnv) :
    ((processReceiptOCR v rid uid mt env).updates.map StatusUpdate.status
        = [OcrStatus.processing, OcrStatus.done] ∨
     (processReceiptOCR v rid uid mt env).updates.map StatusUpdate.status
        = [OcrStatus.processing, OcrStatus.failed] ∨
     (processReceiptOCR v rid uid mt env).updates.map StatusUpdate.status
        = [OcrStatus.processing, OcrStatus.done, OcrStatus.failed]) ∧
    ((processReceiptOCR v rid uid mt env).updates.map StatusUpdate.status
        = [OcrStatus.processing, OcrStatus.done, OcrStatus.failed] →
      env.expenseCreateOk = false) := by
  rcases env with ⟨ocr, cok⟩
  unfold processReceiptOCR
  by_cases him : isImageMime mt
  · simp only [him, not_true, if_neg, Bool.true_eq_false]
    cases ocr with
    | none => simp
    | some text =>
      cases hpa : (parseReceiptData v text).parsedAmount with
      | none => simp [hpa]
      | some a =>
        by_cases h0 : 0 < a.num
        · cases cok <;> simp [hpa, h0]
        · simp [hpa, h0]
  · simp [him]

/-- Witness for the amended claim C1 at a concrete run. -/
theorem statusMonotoneExceptCreateThrow_witness :
    (⟨some "total: $5.00".data, false⟩ : OcrEnv).expenseCreateOk = false :=
  (statusMonotoneExceptCreateThrow nodeDateValid 1 1 "image/jpeg".data
    ⟨some "total: $5.00".data, false⟩).2 (by decide)

/-- Claim C4: a non-image receipt goes straight to `done` with the fixed
sentinel text, the text extractor is never invoked, and no expense is
created (receiptService.js lines 134-144). -/
theorem nonImageSentinelRun (v : List Char → Bool) (rid uid : Nat)
    (mt : List Char) (env : OcrEnv) (h : isImageMime mt = false) :
    processReceiptOCR v rid uid mt env =
      ⟨[⟨OcrStatus.processing, none⟩, ⟨OcrStatus.done, some pdfSentinel⟩],
       false, none⟩ := by
  unfold processReceiptOCR
  simp [h]

/-- Witness for claim C4 at a PDF receipt. -/
theorem nonImageSentinelRun_witness :
    processReceiptOCR nodeDateValid 1 1 "application/pdf".data ⟨none, true⟩ =
      ⟨[⟨OcrStatus.processing, none⟩, ⟨OcrStatus.done, some pdfSentinel⟩],
       false, none⟩ :=
  nonImageSentinelRun nodeDateValid 1 1 "application/pdf".data ⟨none, true⟩
    (by decide)

/-- Claim C3: on an image run whose extraction succeeded and whose store
accepts the create, a strictly positive parsed amount yields exactly one
expense carrying the parsed amount, the parsed date (or the current date
when absent), the parsed merchant (or the fixed placeholder), the
suggested category, the raw text, the parsed-field snapshot, and
`isVerified = false`; with no parsed amount, no expense is created and
the run ends in `done` (receiptService.js lines 150-181). -/
theorem decisionGateExpense (v : List Char → Bool) (rid uid : Nat)
    (mt text : List Char) (env : OcrEnv) (him : isImageMime mt = true)
    (hocr : env.ocrOutcome = some text) (hok : env.expenseCreateOk = true) :
    (∀ a, (parseReceiptData v text).parsedAmount = some a → 0 < a.num →
      processReceiptOCR v rid uid mt env =
        ⟨[⟨OcrStatus.processing, none⟩, ⟨OcrStatus.done, some text⟩], true,
         some ⟨uid, rid,
           jsOrElseStr (parseReceiptData v text).parsedMerchant
             "Unknown Merchant".data,
           a,
           (match (parseReceiptData v text).parsedDate with
             | some s => ExpenseDate.fromOcr s
             | none => ExpenseDate.currentDate),
           extractCategory text, text, parseReceiptData v text, false⟩⟩) ∧
    ((parseReceiptData v text).parsedAmount = none →
      processReceiptOCR v rid uid mt env =
        ⟨[⟨OcrStatus.processing, none⟩, ⟨OcrStatus.done, some text⟩], true,
         none⟩) := by
  rcases env with ⟨ocr, cok⟩
  cases hocr
  cases hok
  constructor
  · intro a hpa h0
    unfold processReceiptOCR
    simp [him, hpa, h0]
  · intro hpa
    unfold processReceiptOCR
    simp [him, hpa]

/-- Witness for claim C3: the section-8 scenario text creates the
expected expense. -/
theorem decisionGateExpense_witness :
    processReceiptOCR nodeDateValid 7 3 "image/jpeg".data
        ⟨some starbucksText, true⟩ =
      ⟨[⟨OcrStatus.processing, none⟩, ⟨OcrStatus.done, some starbucksText⟩],
       true,
       some ⟨3, 7, "Starbucks".data, ⟨4599, 2⟩,
         ExpenseDate.fromOcr "12/25/2024".data, some "food".data,
         starbucksText,
         ⟨some "Starbucks".data, some ⟨4599, 2⟩, some "12/25/2024".data⟩,
         false⟩⟩ := by
  have h := (decisionGateExpense nodeDateValid 7 3 "image/jpeg".data
    starbucksText ⟨some starbucksText, true⟩ (by decide) rfl rfl).1
    ⟨4599, 2⟩ (by decide) (by decide)
  rw [h]
  decide

/-- Claim C5: when the text extractor throws, the run ends `failed` with
no expense, and the upload response — already computed before the
background task runs — is unaffected: `createReceipt` returns the same
successful result whatever the background environment holds
(receiptService.js lines 103-106 and 182-186). -/
theorem extractionFailureSwallowed (v : List Char → Bool) (uid : Nat)
    (f : UploadFile) (url : List Char) (nid : Nat) (env : OcrEnv)
    (him : isImageMime f.mimetype = true)
    (hallow : allowedMimeTypes.contains f.mimetype = true)
    (hsize : f.size ≤ 10 * 1024 * 1024)
    (hocr : env.ocrOutcome = none) :
    createReceipt (some f) uid true url nid v env =
      (.ok ⟨nid, uid, url, f.originalname, f.size, f.mimetype, .pending⟩,
       some ⟨[⟨OcrStatus.processing, none⟩, ⟨OcrStatus.failed, none⟩],
         true, none⟩) ∧
    (∀ env2 : OcrEnv,
      (createReceipt (some f) uid true url nid v env2).fst =
        .ok ⟨nid, uid, url, f.originalname, f.size, f.mimetype, .pending⟩) := by
  rcases env with ⟨ocr, cok⟩
  cases hocr
  constructor
  · simp only [createReceipt]
    rw [if_neg (by simpa using hallow), if_neg (by omega), if_neg (by simp)]
    unfold processReceiptOCR
    simp [him]
  · intro env2
    simp only [createReceipt]
    rw [if_neg (by simpa using hallow), if_neg (by omega), if_neg (by simp)]

/-- Witness for claim C5 at a concrete upload. -/
theorem extractionFailureSwallowed_witness :
    createReceipt (some ⟨"r.jpg".data, "image/jpeg".data, 1000⟩) 4 true
        "https://res.example/upload/x.jpg".data 9 nodeDateValid
        ⟨none, true⟩ =
      (.ok ⟨9, 4, "https://res.example/upload/x.jpg".data, "r.jpg".data,
        1000, "image/jpeg".data, .pending⟩,
       some ⟨[⟨OcrStatus.processing, none⟩, ⟨OcrStatus.failed, none⟩],
         true, none⟩) :=
  (extractionFailureSwallowed nodeDateValid 4
    ⟨"r.jpg".data, "image/jpeg".data, 1000⟩
    "https://res.example/upload/x.jpg".data 9 ⟨none, true⟩
    (by decide) (by decide) (by decide) rfl).1

/-- Claim C6: an ownership-checked delete issues its sub-steps in the
order blob delete, linked-expense delete, receipt-row delete; outcomes of
the two best-effort steps change nothing, the row delete alone decides
success, and on success the fetched receipt record is returned
(receiptService.js lines 248-323). -/
theorem deleteReceiptOrdered (rid uid : Nat) (env : DelEnv) (r : ReceiptDoc)
    (hf : env.found = some r) (hown : r.userId = uid) :
    (deleteReceipt rid uid env).snd =
      [DelStep.blobDelete ((extractPublicId r.fileUrl).map
          (fun pid => (pid, resourceTypeOf r.mimeType))),
       DelStep.expenseDelete env.linkedExpense,
       DelStep.rowDelete rid] ∧
    (deleteReceipt rid uid env).fst =
      (if env.rowDeleteOk then .ok r else .error dbWriteError) ∧
    (∀ b e : Bool,
      deleteReceipt rid uid
          ⟨env.found, b, env.linkedExpense, e, env.rowDeleteOk⟩ =
        deleteReceipt rid uid env) := by
  rcases env with ⟨found, bok, le, eok, rok⟩
  cases hf
  refine ⟨?_, ?_, ?_⟩
  · unfold deleteReceipt
    simp [hown]
    split <;> rfl
  · unfold deleteReceipt
    simp [hown]
    split <;> rfl
  · intro b e
    rfl

/-- Witness for claim C6: deleting an owned receipt with a linked
expense and a failing blob-store delete. -/
theorem deleteReceiptOrdered_witness :
    (deleteReceipt 5 2 ⟨some ⟨5, 2,
        "https://res.cloudinary.com/demo/image/upload/v123/receipts/2/receipt_9.jpg".data,
        "r.jpg".data, 1000, "image/jpeg".data, .done⟩,
      false, some 11, true, true⟩).snd =
      [DelStep.blobDelete (some ("receipts/2/receipt_9".data, ResourceType.image)),
       DelStep.expenseDelete (some 11),
       DelStep.rowDelete 5] := by
  have h := (deleteReceiptOrdered 5 2 ⟨some ⟨5, 2,
      "https://res.cloudinary.com/demo/image/upload/v123/receipts/2/receipt_9.jpg".data,
      "r.jpg".data, 1000, "image/jpeg".data, .done⟩,
    false, some 11, true, true⟩ _ rfl rfl).1
  rw [h]
  decide

/-- Claim C7: `createExpense` rejects, in this order of precedence, a
missing receiptId, a missing amount, a missing date (400), an unknown
receipt (404), a foreign receipt (403), a receipt that already has an
expense (409, the at-most-one-expense-per-receipt guard), and otherwise
stores `{ userId, ...body, isVerified: false }`; the repository create is
the last step, so every rejection creates nothing
(expenseService.js lines 11-61). -/
theorem createExpensePrecedence (d : ExpenseInput) (uid : Nat)
    (env : ExpenseCreateEnv) :
    (jsFalsyStr d.receiptId = true →
      createExpenseSvc d uid env = .error ⟨400, "Receipt ID is required".data⟩) ∧
    (jsFalsyStr d.receiptId = false → jsFalsyNum d.amount = true →
      createExpenseSvc d uid env = .error ⟨400, "Amount is required".data⟩) ∧
    (jsFalsyStr d.receiptId = false → jsFalsyNum d.amount = false →
      jsFalsyStr d.date = true →
      createExpenseSvc d uid env = .error ⟨400, "Date is required".data⟩) ∧
    (jsFalsyStr d.receiptId = false → jsFalsyNum d.amount = false →
      jsFalsyStr d.date = false → env.receipt = none →
      createExpenseSvc d uid env = .error ⟨404, "Receipt not found".data⟩) ∧
    (∀ r, jsFalsyStr d.receiptId = false → jsFalsyNum d.amount = false →
      jsFalsyStr d.date = false → env.receipt = some r → r.userId ≠ uid →
      createExpenseSvc d uid env = .error ⟨403, "Access denied".data⟩) ∧
    (∀ r i, jsFalsyStr d.receiptId = false → jsFalsyNum d.amount = false →
      jsFalsyStr d.date = false → env.receipt = some r → r.userId = uid →
      env.existingExpense = some i →
      createExpenseSvc d uid env =
        .error ⟨409, "Expense already exists for this receipt".data⟩) ∧
    (∀ r, jsFalsyStr d.receiptId = false → jsFalsyNum d.amount = false →
      jsFalsyStr d.date = false → env.receipt = some r → r.userId = uid →
      env.existingExpense = none →
      createExpenseSvc d uid env = .ok ⟨uid, d, false⟩) := by
  refine ⟨?_, ?_, ?_, ?_, ?_, ?_, ?_⟩
  · intro h1
    unfold createExpenseSvc
    simp [h1]
  · intro h1 h2
    unfold createExpenseSvc
    simp [h1, h2]
  · intro h1 h2 h3
    unfold createExpenseSvc
    simp [h1, h2, h3]
  · intro h1 h2 h3 h4
    unfold createExpenseSvc
    simp [h1, h2, h3, h4]
  · intro r h1 h2 h3 h4 h5
    unfold createExpenseSvc
    simp [h1, h2, h3, h4, h5]
  · intro r i h1 h2 h3 h4 h5 h6
    unfold createExpenseSvc
    simp [h1, h2, h3, h4, h5, h6]
  · intro r h1 h2 h3 h4 h5 h6
    unfold createExpenseSvc
    simp [h1, h2, h3, h4, h5, h6]

/-- Witness for claim C7: a duplicate creation attempt is rejected with
the conflict error. -/
theorem createExpensePrecedence_witness :
    createExpenseSvc
        ⟨some "507f1f77bcf86cd799439011".data, some ⟨1200, 2⟩,
         some "2024-12-25".data, none, none⟩ 2
        ⟨some ⟨5, 2, "u".data, "r.jpg".data, 9, "image/jpeg".data, .done⟩,
         some 11⟩ =
      .error ⟨409, "Expense already exists for this receipt".data⟩ :=
  ((createExpensePrecedence
      ⟨some "507f1f77bcf86cd799439011".data, some ⟨1200, 2⟩,
       some "2024-12-25".data, none, none⟩ 2
      ⟨some ⟨5, 2, "u".data, "r.jpg".data, 9, "image/jpeg".data, .done⟩,
       some 11⟩).2.2.2.2.2.1)
    ⟨5, 2, "u".data, "r.jpg".data, 9, "image/jpeg".data, .done⟩ 11
    (by decide) (by decide) (by decide) rfl rfl rfl

/-- Claim C8: every expense record successfully created — by the
pipeline (receiptService.js line 159) or by the POST /api/expenses chain
(expenseValidation.js lines 10-14 before expenseService.js lines 19-23)
— carries a strictly positive amount. -/
theorem createdAmountPositive :
    (∀ (v : List Char → Bool) (rid uid : Nat) (mt : List Char)
        (env : OcrEnv) (e : ExpenseDoc),
      (processReceiptOCR v rid uid mt env).expense = some e →
        0 < e.amount.val) ∧
    (∀ (im iso : List Char → Bool) (d : ExpenseInput) (uid : Nat)
        (env : ExpenseCreateEnv) (e : CreatedExpense),
      createExpenseRoute im iso d uid env = .ok e →
        ∃ a, e.body.amount = some a ∧ 0 < a.val) := by
  constructor
  · intro v rid uid mt env e h
    rcases env with ⟨ocr, cok⟩
    unfold processReceiptOCR at h
    by_cases him : isImageMime mt
    · rw [if_neg (by simp [him])] at h
      cases ocr with
      | none => simp at h
      | some text =>
        cases hpa : (parseReceiptData v text).parsedAmount with
        | none => simp [hpa] at h
        | some a =>
          by_cases h0 : 0 < a.num
          · cases cok with
            | false => simp [hpa, h0] at h
            | true =>
              simp only [hpa, h0, if_true, Option.some.injEq] at h
              rcases h with rfl
              exact (Dec.val_pos_iff a).mpr h0
          · simp [hpa, h0] at h
    · rw [if_pos (by simp [him])] at h
      simp at h
  · intro im iso d uid env e h
    obtain ⟨drid, dam, ddate, dmer, dcat⟩ := d
    unfold createExpenseRoute at h
    by_cases hv : createExpenseValidationOk im iso ⟨drid, dam, ddate, dmer, dcat⟩ = true
    · rw [if_pos hv] at h
      simp only [createExpenseValidationOk, Bool.and_eq_true] at hv
      obtain ⟨⟨h1, h2⟩, h3⟩ := hv
      clear h1 h3
      cases dam with
      | none => simp at h2
      | some a =>
        have hle : (10 : Int) ^ a.exp ≤ 100 * a.num := by simpa using h2
        have hp : (0 : Int) < 10 ^ a.exp := pow_pos (by norm_num) _
        have hnum : 0 < a.num := by omega
        have hbody : e = ⟨uid, ⟨drid, some a, ddate, dmer, dcat⟩, false⟩ := by
          unfold createExpenseSvc at h
          split at h
          · simp at h
          split at h
          · simp at h
          split at h
          · simp at h
          split at h
          · simp at h
          split at h
          · simp at h
          split at h
          · simp at h
          simpa using h.symm
        subst hbody
        exact ⟨a, rfl, (Dec.val_pos_iff a).mpr hnum⟩
    · rw [if_neg hv] at h
      simp at h

/-- Witness for claim C8: a concrete accepted manual creation. -/
theorem createdAmountPositive_witness :
    ∃ a, (⟨2, ⟨some "507f1f77bcf86cd799439011".data, some ⟨4599, 2⟩,
      some "2024-12-25".data, none, none⟩, false⟩ :
        CreatedExpense).body.amount = some a ∧ 0 < a.val :=
  createdAmountPositive.2 (fun _ => true) (fun _ => true)
    ⟨some "507f1f77bcf86cd799439011".data, some ⟨4599, 2⟩,
     some "2024-12-25".data, none, none⟩ 2
    ⟨some ⟨5, 2, "u".data, "r.jpg".data, 9, "image/jpeg".data, .done⟩, none⟩
    ⟨2, ⟨some "507f1f77bcf86cd799439011".data, some ⟨4599, 2⟩,
      some "2024-12-25".data, none, none⟩, false⟩ rfl

/-- Claim C2, counterexample: the comma decimal of `amount: 12,50` is
not coerced to a dot — the first replace of line 53 has already removed
every comma when the first-comma-to-dot replace runs, so the candidate
normalizes to 1250, not 12.50; and for the dollar-prefixed family the
global match makes `match[1]` the second match, so `$1.00 $2.00` yields
2, not the first match 1. -/
theorem amountNormalizationCounterexample :
    jsParsedAmount "amount: 12,50".data = some ⟨1250, 0⟩ ∧
    Dec.val ⟨1250, 0⟩ = 1250 ∧ (1250 : ℚ) ≠ 25 / 2 ∧
    jsParsedAmount "$1.00 $2.00".data = some ⟨200, 2⟩ ∧
    Dec.val ⟨200, 2⟩ = 2 :=
  ⟨by decide, by norm_num [Dec.val], by norm_num, by decide,
   by norm_num [Dec.val]⟩

/-- Claim C2 as amended: the pattern families are tried in strict
priority order and a candidate is accepted only when strictly positive;
for the anchored families the capture of the first match is used, while
for the two global families the second match is used when two or more
exist; normalization strips every comma and dollar sign (so a comma
decimal separator is read as a digit separator, not coerced to a dot):
`total: $12.50` yields 12.50, but `amount: 12,50` yields 1250. -/
theorem amountPriorityNormalization :
    (∀ cs m a, amountPattern1 cs = some m → cleanAmount m = some a →
      0 < a.num → jsParsedAmount cs = some a) ∧
    (∀ cs a, jsParsedAmount cs = some a → 0 < a.val) ∧
    (∀ m ms, jsMatchOneOrZero (m :: ms) = some (ms.headD m)) ∧
    (jsParsedAmount "total: $12.50".data = some ⟨1250, 2⟩ ∧
     Dec.val ⟨1250, 2⟩ = 25 / 2) ∧
    jsParsedAmount "amount: 12,50".data = some ⟨1250, 0⟩ := by
  refine ⟨?_, ?_, ?_, ⟨by decide, by norm_num [Dec.val]⟩, by decide⟩
  · intro cs m a h1 h2 h0
    unfold jsParsedAmount
    rw [h1, amountLoop, h2]
    simp [h0]
  · intro cs a h
    exact (Dec.val_pos_iff a).mpr (amountLoop_pos _ a h)
  · intro m ms
    cases ms <;> rfl

/-- Witness for the amended claim C2 at the anchored family. -/
theorem amountPriorityNormalization_witness :
    jsParsedAmount "total: $12.50".data = some ⟨1250, 2⟩ :=
  amountPriorityNormalization.1 "total: $12.50".data "12.50".data
    ⟨1250, 2⟩ (by decide) (by decide) (by decide)

/-- Claim C9, counterexample: in `99/99/99 25 dec 2020` the first (and
first-matching) numeric pattern matches `99/99/99`, whose parse is an
invalid date — yet the parsed date is not absent: the loop falls through
to the word-month pattern and returns `25 dec 2020`
(ocrService.js lines 69-79). -/
theorem dateInvalidParseFallsThrough :
    datePattern1 "99/99/99 25 dec 2020".data = some "99/99/99".data ∧
    nodeDateValid "99/99/99".data = false ∧
    jsParsedDate nodeDateValid "99/99/99 25 dec 2020".data =
      some "25 dec 2020".data :=
  ⟨by decide, by decide, by decide⟩

/-- Claim C9 as amended: the date formats are tried in the stated order
and the first pattern whose leftmost match parses as a valid date wins; a
pattern whose match parses invalid is skipped in favour of the later
patterns, and the parsed date is absent only when the match of no
pattern parses valid. -/
theorem dateFirstValidPatternWins :
    (∀ (v : List Char → Bool) cs m, datePattern1 cs = some m → v m = true →
      jsParsedDate v cs = some m) ∧
    (∀ (v : List Char → Bool) cs m, datePattern1 cs = some m → v m = false →
      jsParsedDate v cs =
        dateLoop v [datePattern2 cs, datePattern3 cs, datePattern4 cs]) ∧
    (∀ (v : List Char → Bool) cs m, jsParsedDate v cs = some m →
      v m = true ∧ (datePattern1 cs = some m ∨ datePattern2 cs = some m ∨
        datePattern3 cs = some m ∨ datePattern4 cs = some m)) ∧
    jsParsedDate nodeDateValid "99/99/99 25 dec 2020".data =
      some "25 dec 2020".data := by
  refine ⟨?_, ?_, ?_, by decide⟩
  · intro v cs m h1 hv
    unfold jsParsedDate
    rw [h1, dateLoop, if_pos hv]
  · intro v cs m h1 hv
    unfold jsParsedDate
    rw [h1, dateLoop, if_neg (by simp [hv])]
  · intro v cs m h
    rcases dateLoop_valid_mem v _ m h with ⟨h1, h2⟩
    refine ⟨h1, ?_⟩
    simpa [eq_comm] using h2

/-- Witness for the amended claim C9. -/
theorem dateFirstValidPatternWins_witness :
    jsParsedDate nodeDateValid "paid 12/25/2024 ok".data =
      some "12/25/2024".data :=
  dateFirstValidPatternWins.1 nodeDateValid "paid 12/25/2024 ok".data
    "12/25/2024".data (by decide) (by decide)

/-- Claim C10: the field parser and the category classifier are total
functions of the input text (totality is by construction here: every
loop in the embedding is structural), and their results are well-formed
on every input: a present amount is strictly positive, a present date is
a match that parsed as a valid date, a present merchant is the non-empty
trim of a non-blank line of the input, and the classifier returns one of
its seven fixed category names or none. -/
theorem parserClassifierSafety (v : List Char → Bool) (cs : List Char) :
    (∀ a, (parseReceiptData v cs).parsedAmount = some a → 0 < a.val) ∧
    (∀ m, (parseReceiptData v cs).parsedDate = some m → v m = true) ∧
    (∀ mc, (parseReceiptData v cs).parsedMerchant = some mc →
      mc ≠ [] ∧ ∃ l ∈ jsLines cs, mc = trimJs l) ∧
    (extractCategory cs = none ∨ extractCategory cs = some "food".data ∨
     extractCategory cs = some "transport".data ∨
     extractCategory cs = some "shopping".data ∨
     extractCategory cs = some "groceries".data ∨
     extractCategory cs = some "entertainment".data ∨
     extractCategory cs = some "healthcare".data ∨
     extractCategory cs = some "utilities".data) := by
  refine ⟨?_, ?_, ?_, ?_⟩
  · intro a h
    exact (Dec.val_pos_iff a).mpr (amountLoop_pos _ a h)
  · intro m h
    exact (dateLoop_valid_mem v _ m h).1
  · intro mc h
    have hm : jsParsedMerchant cs = some mc := h
    unfold jsParsedMerchant at hm
    cases hl : jsLines cs with
    | nil => rw [hl] at hm; simp at hm
    | cons l0 rest =>
      simp only [hl] at hm
      have hl0 : l0 ∈ jsLines cs := by
        rw [hl]; exact List.mem_cons_self _ _
      have hl0len : 0 < (trimJs l0).length := by
        have h' := hl0
        simp only [jsLines, List.mem_filter, decide_eq_true_eq] at h'
        exact h'.2
      have hl0p : trimJs l0 ≠ [] := List.ne_nil_of_length_pos hl0len
      by_cases haddr : merchantLooksAddress (trimJs l0) = true
      · rw [if_pos haddr] at hm
        cases rest with
        | nil =>
          rw [Option.some.injEq] at hm
          subst hm
          exact ⟨hl0p, l0, List.mem_cons_self _ _, rfl⟩
        | cons l1 rest2 =>
          have hl1 : l1 ∈ jsLines cs := by
            rw [hl]; exact List.mem_cons_of_mem _ (List.mem_cons_self _ _)
          have hl1len : 0 < (trimJs l1).length := by
            have h' := hl1
            simp only [jsLines, List.mem_filter, decide_eq_true_eq] at h'
            exact h'.2
          have hl1p : trimJs l1 ≠ [] := List.ne_nil_of_length_pos hl1len
          rw [show (match l1 :: rest2 with
              | l1 :: _ => if trimJs l1 = [] then trimJs l0 else trimJs l1
              | [] => trimJs l0) = if trimJs l1 = [] then trimJs l0 else trimJs l1
            from rfl, if_neg hl1p, Option.some.injEq] at hm
          subst hm
          exact ⟨hl1p, l1, List.mem_cons_of_mem _ (List.mem_cons_self _ _), rfl⟩
      · rw [if_neg haddr, Option.some.injEq] at hm
        subst hm
        exact ⟨hl0p, l0, List.mem_cons_self _ _, rfl⟩
  · simp only [extractCategory, categoriesTable, extractCategoryAux]
    split_ifs <;> simp

/-- Witness for claim C10 at the section-8 scenario text. -/
theorem parserClassifierSafety_witness :
    (0 : ℚ) < Dec.val ⟨4599, 2⟩ :=
  (parserClassifierSafety nodeDateValid starbucksText).1 ⟨4599, 2⟩ (by decide)

end SmartExpenses
